import Mathlib

/-!
Verification of the QASC training script (`train_qasc.py`).

The dataset-construction, formatting, checkpoint and metric-aggregation logic
of the script is embedded shallowly: pure functions become Lean functions,
Python exceptions (ValueError from `list.index`, IndexError from subscripting,
numpy reshape errors) become `Option`/`none`, and the epoch loop's mutable
`dev_best_acc` becomes explicit state passing.
-/

/-- One parsed JSON-lines record: `question.stem`, the texts of
`question.choices`, and the optional `answerKey` field. -/
structure QARecord where
  stem : String
  choices : List String
  answerKey : Option String
deriving Repr, DecidableEq

/-- The fixed label space `answers = ["A", ..., "H"]` from `QASCDataset.__init__`. -/
def answers : List String := ["A", "B", "C", "D", "E", "F", "G", "H"]

/-- `l = instance["answerKey"] if "answerKey" in instance else "A"`. -/
def labelOf (r : QARecord) : String := r.answerKey.getD "A"

/-- The texts appended to `content` for one record: one per choice in modes
"0", "1", "2" (`"{} {}"`, `"{} \\n {}"`, `"{} {} {}"` with the separator
token), and none in any other mode (no `else` branch in the source). -/
def recordTexts (input_format sep_token : String) (r : QARecord) : List String :=
  if input_format = "0" then
    r.choices.map (fun c => r.stem ++ " " ++ c)
  else if input_format = "1" then
    r.choices.map (fun c => r.stem ++ " \\n " ++ c)
  else if input_format = "2" then
    r.choices.map (fun c => r.stem ++ " " ++ sep_token ++ " " ++ c)
  else
    []

/-- `y = [0]*8; y[answers.index(l)] = 1`; `none` models the ValueError raised
by `list.index` when `l` is not among `answers`. -/
def oneHot (l : String) : Option (List Nat) :=
  match List.indexOf? l answers with
  | none => none
  | some i => some (List.set [0, 0, 0, 0, 0, 0, 0, 0] i 1)

/-- The two parallel sequences `self.content` and `self.labels` built by
`QASCDataset.__init__`. -/
structure DatasetState where
  content : List String
  labels : List Nat
deriving Repr, DecidableEq

/-- One iteration of the `for line in x` loop: append the record's formatted
texts to `content` and its one-hot vector to `labels`; the whole construction
aborts (`none`) if the answer-key lookup fails. -/
def processRecord (input_format sep_token : String) (st : DatasetState) (r : QARecord) :
    Option DatasetState :=
  match oneHot (labelOf r) with
  | none => none
  | some y => some ⟨st.content ++ recordTexts input_format sep_token r, st.labels ++ y⟩

/-- The `for line in x` loop of `QASCDataset.__init__`, starting from an
intermediate state of the two accumulating lists. -/
def buildFrom (input_format sep_token : String) (st : DatasetState) :
    List QARecord → Option DatasetState
  | [] => some st
  | r :: rest =>
    match processRecord input_format sep_token st r with
    | none => none
    | some st' => buildFrom input_format sep_token st' rest

/-- `QASCDataset.__init__` on an already-read (and possibly shuffled) list of
parsed lines: run the loop from the initial empty state. -/
def buildDataset (records : List QARecord) (sep_token input_format : String) :
    Option DatasetState :=
  buildFrom input_format sep_token ⟨[], []⟩ records

/-- The one-hot label vectors of a list of records, aborting at the first
failed answer-key lookup. -/
def oneHots : List QARecord → Option (List (List Nat))
  | [] => some []
  | r :: rest =>
    match oneHot (labelOf r), oneHots rest with
    | some y, some ys => some (y :: ys)
    | _, _ => none

/-- `QASCDataset.__len__`: `len(self.content)`. -/
def datasetLen (d : DatasetState) : Nat := d.content.length

/-- `QASCDataset.__getitem__`: `(self.content[index], self.labels[index])`;
`none` models the IndexError when either subscript is out of range. -/
def getItem (d : DatasetState) (index : Nat) : Option (String × Nat) :=
  match d.content[index]?, d.labels[index]? with
  | some s1, some s2 => some (s1, s2)
  | _, _ => none

/-- `__getitem__` at each index of a list, aborting at the first IndexError. -/
def collectItems (d : DatasetState) : List Nat → Option (List (String × Nat))
  | [] => some []
  | i :: is =>
    match getItem d i, collectItems d is with
    | some p, some ps => some (p :: ps)
    | _, _ => none

/-- The flat sequence of (text, label) pairs the dataset exposes: `__getitem__`
at every index below `__len__`. -/
def producedExamples (d : DatasetState) : Option (List (String × Nat)) :=
  collectItems d (List.range (datasetLen d))

/-- The (texts, labels) group a single record contributes to the dataset:
its formatted texts and the result of its one-hot label encoding. -/
def recordGroup (input_format sep_token : String) (r : QARecord) :
    List String × Option (List Nat) :=
  (recordTexts input_format sep_token r, oneHot (labelOf r))

/-- Rows of numpy `reshape(-1, 8)`: successive groups of 8 elements (the
final partial group is unreachable behind the divisibility test below). -/
def chunks8 : List Int → List (List Int)
  | x0 :: x1 :: x2 :: x3 :: x4 :: x5 :: x6 :: x7 :: rest =>
      [x0, x1, x2, x3, x4, x5, x6, x7] :: chunks8 rest
  | [] => []
  | l => [l]

/-- `np.array(all_labels_cls).reshape(-1, args.num_choices)` with
`args.num_choices = 8` in the Metric Aggregator: numpy raises (`none`) unless
the flat length is divisible by 8. -/
def npReshape8 (xs : List Int) : Option (List (List Int)) :=
  if xs.length % 8 = 0 then some (chunks8 xs) else none

/-- The checkpoint decisions of the epoch loop, given the per-epoch validation
per-choice accuracies: `dev_best_acc = 0` before the loop, each epoch calls
`save_model` iff `val_acc > dev_best_acc`, and the source never reassigns
`dev_best_acc`.  Returns, per epoch, whether the checkpoint was written. -/
def checkpointWrites (valAccs : List ℚ) : List Bool :=
  (valAccs.foldl (fun st a => (st.1, st.2 ++ [decide (a > st.1)]))
    ((0 : ℚ), ([] : List Bool))).2

/-- Modelled from the spec: the checkpoint policy the specification describes —
the best-so-far accuracy starts at 0 and is updated on every improvement, and
the checkpoint is written only on strict improvement over it. -/
def checkpointWritesSpec (valAccs : List ℚ) : List Bool :=
  (valAccs.foldl (fun st a =>
      if a > st.1 then (a, st.2 ++ [true]) else (st.1, st.2 ++ [false]))
    ((0 : ℚ), ([] : List Bool))).2

/-- Round half to even, the tie-breaking rule of Python's `round`. -/
def roundHalfEven (q : ℚ) : ℤ :=
  if q - ⌊q⌋ < 1 / 2 then ⌊q⌋
  else if 1 / 2 < q - ⌊q⌋ then ⌊q⌋ + 1
  else if ⌊q⌋ % 2 = 0 then ⌊q⌋ else ⌊q⌋ + 1

/-- `round(x, 4)`. -/
def round4 (q : ℚ) : ℚ := (roundHalfEven (q * 10000) : ℚ) / 10000

/-- `np.mean` on a nonempty list, as exact rational arithmetic. -/
def npMean (xs : List ℚ) : ℚ := xs.sum / xs.length

/-- The loss bookkeeping of `train_or_eval_model`: `losses = []` before the
batch loop, each batch appends `loss.item()`. -/
def collectLosses (batchLosses : List ℚ) : List ℚ :=
  batchLosses.foldl (fun acc l => acc ++ [l]) []

/-- `avg_loss = round(np.mean(losses), 4)`. -/
def avg_loss (batchLosses : List ℚ) : ℚ := round4 (npMean (collectLosses batchLosses))

/-- The shuffle configuration of one dataset/loader pair: the `shuffle`
argument passed to `QASCDataset` (record-level shuffle of the raw lines) and
the `shuffle` argument passed to `DataLoader` (example-level shuffle). -/
structure LoaderConfig where
  datasetShuffle : Bool
  loaderShuffle : Bool
deriving Repr, DecidableEq

/-- The three dataset/loader pairs built by `configure_dataloaders`. -/
structure DataloadersConfig where
  train : LoaderConfig
  val : LoaderConfig
  test : LoaderConfig
deriving Repr, DecidableEq

/-- `configure_dataloaders`: the train dataset is constructed with the literal
`True` for its shuffle argument, the train loader receives the command-line
flag; the validation and test datasets and loaders all receive `False`. -/
def configure_dataloaders (shuffle : Bool) : DataloadersConfig :=
  { train := ⟨true, shuffle⟩, val := ⟨false, false⟩, test := ⟨false, false⟩ }

theorem buildFrom_decomp (fmt sep : String) :
    ∀ (records : List QARecord) (st : DatasetState),
    buildFrom fmt sep st records =
      (oneHots records).map
        (fun ys => ⟨st.content ++ (records.map (recordTexts fmt sep)).flatten,
                    st.labels ++ ys.flatten⟩) := by
  intro records
  induction records with
  | nil => intro st; simp [buildFrom, oneHots]
  | cons r rest ih =>
    intro st
    cases h : oneHot (labelOf r) with
    | none => simp [buildFrom, oneHots, processRecord, h]
    | some y =>
      cases h2 : oneHots rest with
      | none =>
        have hb : buildFrom fmt sep ⟨st.content ++ recordTexts fmt sep r, st.labels ++ y⟩ rest = none := by
          rw [ih]; simp [h2]
        simp [buildFrom, oneHots, processRecord, h, h2, hb]
      | some ys =>
        have hb : buildFrom fmt sep ⟨st.content ++ recordTexts fmt sep r, st.labels ++ y⟩ rest =
            some ⟨st.content ++ recordTexts fmt sep r ++ (rest.map (recordTexts fmt sep)).flatten,
                  st.labels ++ y ++ ys.flatten⟩ := by
          rw [ih]; simp [h2]
        simp [buildFrom, oneHots, processRecord, h, h2, hb, List.append_assoc]

theorem buildDataset_decomp (fmt sep : String) (records : List QARecord) :
    buildDataset records sep fmt =
      (oneHots records).map
        (fun ys => ⟨(records.map (recordTexts fmt sep)).flatten, ys.flatten⟩) := by
  rw [buildDataset, buildFrom_decomp]
  simp

theorem oneHot_eq_none_iff (l : String) : oneHot l = none ↔ l ∉ answers := by
  have h1 : oneHot l = none ↔ List.indexOf? l answers = none := by
    rw [oneHot]; cases List.indexOf? l answers <;> simp
  rw [h1, List.indexOf?_eq_none_iff]
  constructor
  · intro h hl
    exact h l hl (by simp)
  · intro h x hx
    simp only [beq_iff_eq]
    rintro rfl
    exact h hx

theorem oneHot_length (l : String) (y : List Nat) (h : oneHot l = some y) :
    y.length = 8 := by
  rw [oneHot] at h
  cases h2 : List.indexOf? l answers with
  | none => rw [h2] at h; simp at h
  | some i =>
    rw [h2] at h
    simp at h
    rw [← h]
    simp

theorem oneHots_eq_none_iff (records : List QARecord) :
    oneHots records = none ↔ ∃ r ∈ records, labelOf r ∉ answers := by
  induction records with
  | nil => simp [oneHots]
  | cons r rest ih =>
    cases h : oneHot (labelOf r) with
    | none =>
      have hr : labelOf r ∉ answers := (oneHot_eq_none_iff _).mp h
      simp [oneHots, h, hr]
    | some y =>
      have hr : labelOf r ∈ answers := by
        by_contra hc
        rw [← oneHot_eq_none_iff] at hc
        rw [hc] at h
        exact Option.noConfusion h
      cases h2 : oneHots rest with
      | none =>
        have := ih.mp h2
        simp only [oneHots, h, h2]
        simp only [List.mem_cons]
        constructor
        · intro _
          obtain ⟨x, hx, hxa⟩ := this
          exact ⟨x, Or.inr hx, hxa⟩
        · intro _; trivial
      | some ys =>
        simp only [oneHots, h, h2]
        rw [h2] at ih
        simp only [List.mem_cons]
        constructor
        · intro hc; exact Option.noConfusion hc
        · rintro ⟨x, hx | hx, hxa⟩
          · rw [hx] at hxa; exact absurd hr hxa
          · exact absurd (ih.mpr ⟨x, hx, hxa⟩) (by simp)

theorem oneHots_isSome (records : List QARecord)
    (h : ∀ r ∈ records, labelOf r ∈ answers) :
    ∃ ys, oneHots records = some ys ∧ ys.length = records.length ∧
      ∀ y ∈ ys, y.length = 8 := by
  induction records with
  | nil => exact ⟨[], rfl, rfl, by simp⟩
  | cons r rest ih =>
    obtain ⟨ys, hys, hlen, hall⟩ := ih (fun x hx => h x (List.mem_cons_of_mem _ hx))
    have hr : labelOf r ∈ answers := h r (List.mem_cons_self _ _)
    have : oneHot (labelOf r) ≠ none := by
      intro hc
      rw [oneHot_eq_none_iff] at hc
      exact hc hr
    obtain ⟨y, hy⟩ := Option.ne_none_iff_exists.mp this
    refine ⟨y :: ys, ?_, by simp [hlen], ?_⟩
    · simp [oneHots, ← hy, hys]
    · intro z hz
      rcases List.mem_cons.mp hz with rfl | hz
      · exact oneHot_length _ _ hy.symm
      · exact hall z hz

theorem collectItems_eq_map (d : DatasetState) (g : Nat → String × Nat) :
    ∀ (l : List Nat), (∀ i ∈ l, getItem d i = some (g i)) →
      collectItems d l = some (l.map g) := by
  intro l
  induction l with
  | nil => intro _; rfl
  | cons i is ih =>
    intro h
    have hi := h i (List.mem_cons_self _ _)
    have his := ih (fun j hj => h j (List.mem_cons_of_mem _ hj))
    simp [collectItems, hi, his]

theorem chunks8_spec : ∀ (n : Nat) (xs : List Int), xs.length = 8 * n →
    (chunks8 xs).length = n ∧ ∀ g ∈ chunks8 xs, g.length = 8 := by
  intro n
  induction n with
  | zero =>
    intro xs h
    rw [Nat.mul_zero, List.length_eq_zero] at h
    subst h
    exact ⟨rfl, by simp [chunks8]⟩
  | succ n ih =>
    intro xs h
    rcases xs with _ | ⟨x0, xs⟩; · simp only [List.length_nil, List.length_cons] at h; omega
    rcases xs with _ | ⟨x1, xs⟩; · simp only [List.length_nil, List.length_cons] at h; omega
    rcases xs with _ | ⟨x2, xs⟩; · simp only [List.length_nil, List.length_cons] at h; omega
    rcases xs with _ | ⟨x3, xs⟩; · simp only [List.length_nil, List.length_cons] at h; omega
    rcases xs with _ | ⟨x4, xs⟩; · simp only [List.length_nil, List.length_cons] at h; omega
    rcases xs with _ | ⟨x5, xs⟩; · simp only [List.length_nil, List.length_cons] at h; omega
    rcases xs with _ | ⟨x6, xs⟩; · simp only [List.length_nil, List.length_cons] at h; omega
    rcases xs with _ | ⟨x7, xs⟩; · simp only [List.length_nil, List.length_cons] at h; omega
    have hlen : xs.length = 8 * n := by simp only [List.length_cons] at h; omega
    obtain ⟨h1, h2⟩ := ih xs hlen
    rw [chunks8]
    refine ⟨by simp [h1], ?_⟩
    intro g hg
    rcases List.mem_cons.mp hg with rfl | hg
    · rfl
    · exact h2 g hg

/-- C4: the Metric Aggregator's reshape into groups of 8 succeeds exactly on
flat sequences whose length is a multiple of 8; a sequence of length `8 * k`
yields `k` groups of 8 elements each, and any other length fails. -/
theorem reshape8_succeeds_iff (xs : List Int) :
    ((npReshape8 xs).isSome ↔ xs.length % 8 = 0) ∧
    (∀ gs, npReshape8 xs = some gs →
      gs.length = xs.length / 8 ∧ ∀ g ∈ gs, g.length = 8) := by
  constructor
  · rw [npReshape8]
    by_cases h : xs.length % 8 = 0 <;> simp [h]
  · intro gs hgs
    rw [npReshape8] at hgs
    by_cases h : xs.length % 8 = 0
    · rw [if_pos h] at hgs
      have hx : xs.length = 8 * (xs.length / 8) :=
        (Nat.mul_div_cancel' (Nat.dvd_of_mod_eq_zero h)).symm
      obtain ⟨h1, h2⟩ := chunks8_spec (xs.length / 8) xs hx
      simp only [Option.some_inj] at hgs
      subst hgs
      exact ⟨h1, h2⟩
    · rw [if_neg h] at hgs
      exact Option.noConfusion hgs

theorem reshape8_succeeds_iff_witness :
    (npReshape8 [1, 0, 0, 0, 0, 0, 0, 0, 0, 0, 1, 0, 0, 0, 0, 0] =
      some [[1, 0, 0, 0, 0, 0, 0, 0], [0, 0, 1, 0, 0, 0, 0, 0]]) ∧
    ((npReshape8 [1, 0, 0, 0, 0, 0, 0, 0, 0, 0, 1, 0, 0, 0, 0, 0]).isSome ↔
      (16 : Nat) % 8 = 0) ∧
    npReshape8 [1, 0, 0] = none :=
  ⟨by decide,
   (reshape8_succeeds_iff [1, 0, 0, 0, 0, 0, 0, 0, 0, 0, 1, 0, 0, 0, 0, 0]).1,
   by decide⟩

/-- C6: for every stem, choice and separator token, the formatted text joins
stem and choice with a single space in mode "0", with the literal two-character
marker `\n` (surrounded by spaces) in mode "1", and with the model-specific
separator token (surrounded by spaces) in mode "2". -/
theorem format_mode_texts (sep : String) (r : QARecord) :
    recordTexts "0" sep r = r.choices.map (fun c => r.stem ++ " " ++ c) ∧
    recordTexts "1" sep r = r.choices.map (fun c => r.stem ++ " \\n " ++ c) ∧
    recordTexts "2" sep r = r.choices.map (fun c => r.stem ++ " " ++ sep ++ " " ++ c) := by
  refine ⟨rfl, ?_, ?_⟩ <;> simp [recordTexts]

/-- C8: in each of the three format modes, the produced texts are a
deterministic pure function of the stem and the choice strings: two records
agreeing on stem and choices format identically, whatever their answer keys. -/
theorem format_deterministic (mode sep : String) (r1 r2 : QARecord)
    (hstem : r1.stem = r2.stem) (hchoices : r1.choices = r2.choices) :
    recordTexts mode sep r1 = recordTexts mode sep r2 := by
  cases r1
  cases r2
  simp only at hstem hchoices
  subst hstem
  subst hchoices
  rfl

theorem format_deterministic_witness :
    (⟨"s", ["c"], some "A"⟩ : QARecord).stem = (⟨"s", ["c"], some "B"⟩ : QARecord).stem ∧
    (⟨"s", ["c"], some "A"⟩ : QARecord).choices = (⟨"s", ["c"], some "B"⟩ : QARecord).choices ∧
    recordTexts "2" "</s>" ⟨"s", ["c"], some "A"⟩ = recordTexts "2" "</s>" ⟨"s", ["c"], some "B"⟩ :=
  ⟨rfl, rfl, format_deterministic "2" "</s>" _ _ rfl rfl⟩

/-- C2 (code bug): with validation accuracies 1/2 and then again 1/2, the code
writes the checkpoint in both epochs — `dev_best_acc` is initialized to 0 and
never reassigned, so any epoch with positive accuracy triggers `save_model` —
while the specified policy (best-so-far updated on improvement, write only on
strict improvement) writes only in the first epoch: an epoch whose accuracy
equals the previous best does overwrite the checkpoint. -/
theorem checkpoint_written_despite_no_improvement :
    checkpointWrites [1/2, 1/2] = [true, true] ∧
    checkpointWritesSpec [1/2, 1/2] = [true, false] ∧
    checkpointWrites [1/2, 1/2] ≠ checkpointWritesSpec [1/2, 1/2] := by
  refine ⟨?_, ?_, ?_⟩ <;> norm_num [checkpointWrites, checkpointWritesSpec]

/-- C3 counterexample: a record with two choices and answer key "D" formats
without failure — the index lookup is over the fixed A–H space, not over the
record's own choices — yielding two texts and the one-hot vector with the 1 in
position 3, outside the first two positions. -/
theorem answer_key_beyond_choices_succeeds :
    buildDataset [⟨"q", ["x", "y"], some "D"⟩] "</s>" "0" =
      some ⟨["q x", "q y"], [0, 0, 0, 1, 0, 0, 0, 0]⟩ := by
  decide

/-- C3 amended: dataset construction fails exactly when some record's
effective answer key is not among the fixed letters A–H; a key that is within
A–H but beyond the record's number of choices does not make formatting fail. -/
theorem dataset_fails_iff_key_not_in_answers (records : List QARecord) (mode sep : String) :
    buildDataset records sep mode = none ↔ ∃ r ∈ records, labelOf r ∉ answers := by
  rw [buildDataset_decomp, Option.map_eq_none', oneHots_eq_none_iff]

/-- C9: for every value of the command-line shuffle flag, the train dataset is
built with record-level shuffling enabled, the train batch loader's
example-level shuffle is exactly the flag, and the validation and test
datasets and loaders are never shuffled.  Moreover example-level shuffling can
split a question's choice-group: for a concrete two-record dataset there is a
permutation of the flat text sequence that is not the concatenation of the two
record groups in either order. -/
theorem train_loader_shuffle_config (flag : Bool) :
    ((configure_dataloaders flag).train = ⟨true, flag⟩ ∧
     (configure_dataloaders flag).val = ⟨false, false⟩ ∧
     (configure_dataloaders flag).test = ⟨false, false⟩) ∧
    (∃ d sh,
      buildDataset [⟨"a", ["1", "2"], some "A"⟩, ⟨"b", ["1", "2"], some "B"⟩] "</s>" "0" =
        some d ∧
      d.content = recordTexts "0" "</s>" ⟨"a", ["1", "2"], some "A"⟩ ++
        recordTexts "0" "</s>" ⟨"b", ["1", "2"], some "B"⟩ ∧
      sh.Perm d.content ∧
      sh ≠ recordTexts "0" "</s>" ⟨"a", ["1", "2"], some "A"⟩ ++
        recordTexts "0" "</s>" ⟨"b", ["1", "2"], some "B"⟩ ∧
      sh ≠ recordTexts "0" "</s>" ⟨"b", ["1", "2"], some "B"⟩ ++
        recordTexts "0" "</s>" ⟨"a", ["1", "2"], some "A"⟩) := by
  refine ⟨⟨rfl, rfl, rfl⟩,
    ⟨⟨["a 1", "a 2", "b 1", "b 2"], [1,0,0,0,0,0,0,0,0,1,0,0,0,0,0,0]⟩,
     ["a 1", "b 1", "a 2", "b 2"], by decide, by decide, by decide, by decide, by decide⟩⟩

theorem foldl_append_eq (l acc : List ℚ) :
    l.foldl (fun a x => a ++ [x]) acc = acc ++ l := by
  induction l generalizing acc with
  | nil => simp
  | cons x xs ih => simp [List.foldl_cons, ih]

theorem collectLosses_eq (l : List ℚ) : collectLosses l = l := by
  rw [collectLosses, foldl_append_eq]
  simp

theorem roundHalfEven_bound (q : ℚ) : |(roundHalfEven q : ℚ) - q| ≤ 1 / 2 := by
  have h1 : (⌊q⌋ : ℚ) ≤ q := Int.floor_le q
  have h2 : q < ⌊q⌋ + 1 := Int.lt_floor_add_one q
  rw [roundHalfEven]
  split_ifs with ha hb hc
  · rw [abs_le]; constructor <;> push_cast <;> linarith
  · rw [abs_le]; constructor <;> push_cast <;> linarith
  · rw [abs_le]; constructor <;> push_cast <;> linarith
  · rw [abs_le]; constructor <;> push_cast <;> linarith

/-- C7: the loss reported for a split is the arithmetic mean of the per-batch
loss values rounded to 4 decimal places: it equals `round4` of `sum/count`,
is an integer multiple of 1/10000, and lies within half of 1/10000 of the
exact mean. -/
theorem avg_loss_is_rounded_mean (batchLosses : List ℚ) (h : batchLosses ≠ []) :
    avg_loss batchLosses = round4 (batchLosses.sum / batchLosses.length) ∧
    (∃ z : ℤ, avg_loss batchLosses * 10000 = (z : ℚ)) ∧
    |avg_loss batchLosses - batchLosses.sum / batchLosses.length| ≤ 1 / 20000 := by
  have hm : npMean (collectLosses batchLosses) = batchLosses.sum / batchLosses.length := by
    rw [collectLosses_eq, npMean]
  refine ⟨by rw [avg_loss, hm], ⟨roundHalfEven (npMean (collectLosses batchLosses) * 10000), ?_⟩, ?_⟩
  · rw [avg_loss, round4]
    field_simp
  · rw [avg_loss, round4, ← hm]
    set m := npMean (collectLosses batchLosses) with hmdef
    have hb := roundHalfEven_bound (m * 10000)
    have heq : (roundHalfEven (m * 10000) : ℚ) / 10000 - m =
        ((roundHalfEven (m * 10000) : ℚ) - m * 10000) / 10000 := by ring
    rw [heq, abs_div]
    have h10 : |(10000 : ℚ)| = 10000 := by norm_num
    rw [h10]
    rw [div_le_div_iff₀ (by norm_num : (0:ℚ) < 10000) (by norm_num : (0:ℚ) < 20000)]
    nlinarith [hb]

theorem avg_loss_is_rounded_mean_witness :
    ([1/10, 3/10] : List ℚ) ≠ [] ∧
    (avg_loss [1/10, 3/10] = round4 (([1/10, 3/10] : List ℚ).sum / ([1/10, 3/10] : List ℚ).length) ∧
     (∃ z : ℤ, avg_loss [1/10, 3/10] * 10000 = (z : ℚ)) ∧
     |avg_loss [1/10, 3/10] - ([1/10, 3/10] : List ℚ).sum / ([1/10, 3/10] : List ℚ).length| ≤ 1 / 20000) :=
  ⟨by simp, avg_loss_is_rounded_mean [1/10, 3/10] (by simp)⟩

/-- C10: for a format mode outside {"0","1","2"} (and records whose effective
answer keys are all within A–H), dataset construction still succeeds: the text
sequence stays empty so the dataset reports length 0, while an 8-element
one-hot vector is still appended per record, so the stored label sequence has
length `8 * #records` and is nonempty whenever there is at least one record. -/
theorem unknown_mode_empty_content (records : List QARecord) (mode sep : String)
    (hmode : mode ≠ "0" ∧ mode ≠ "1" ∧ mode ≠ "2")
    (hkeys : ∀ r ∈ records, labelOf r ∈ answers) :
    ∃ d, buildDataset records sep mode = some d ∧
      d.content = [] ∧ datasetLen d = 0 ∧
      d.labels.length = 8 * records.length ∧
      (records ≠ [] → d.labels ≠ []) := by
  obtain ⟨ys, hys, hlen, hall⟩ := oneHots_isSome records hkeys
  have hcontent : (records.map (recordTexts mode sep)).flatten = [] := by
    rw [List.flatten_eq_nil_iff]
    intro l hl
    obtain ⟨r, _, rfl⟩ := List.mem_map.mp hl
    rw [recordTexts, if_neg hmode.1, if_neg hmode.2.1, if_neg hmode.2.2]
  have hlabels : ys.flatten.length = 8 * records.length := by
    rw [List.length_flatten]
    have : ys.map List.length = List.replicate ys.length 8 :=
      List.eq_replicate_iff.mpr ⟨by simp, by
        intro b hb
        obtain ⟨y, hy, rfl⟩ := List.mem_map.mp hb
        exact hall y hy⟩
    rw [this, List.sum_replicate, smul_eq_mul, hlen, Nat.mul_comm]
  rw [buildDataset_decomp, hys]
  refine ⟨⟨[], ys.flatten⟩, by simp [hcontent], rfl, rfl, hlabels, ?_⟩
  intro hne hflat
  have hflat' : ys.flatten = [] := hflat
  have : ys.flatten.length = 0 := by rw [hflat']; rfl
  rw [hlabels] at this
  have : records.length = 0 := by omega
  exact hne (List.length_eq_zero.mp this)

theorem unknown_mode_empty_content_witness :
    (("3" : String) ≠ "0" ∧ ("3" : String) ≠ "1" ∧ ("3" : String) ≠ "2") ∧
    (∀ r ∈ [(⟨"q", ["x"], some "A"⟩ : QARecord)], labelOf r ∈ answers) ∧
    (∃ d, buildDataset [(⟨"q", ["x"], some "A"⟩ : QARecord)] "</s>" "3" = some d ∧
      d.content = [] ∧ datasetLen d = 0 ∧
      d.labels.length = 8 * [(⟨"q", ["x"], some "A"⟩ : QARecord)].length ∧
      ([(⟨"q", ["x"], some "A"⟩ : QARecord)] ≠ [] → d.labels ≠ [])) :=
  ⟨by decide, by decide,
   unknown_mode_empty_content [⟨"q", ["x"], some "A"⟩] "3" "</s>" (by decide) (by decide)⟩

/-- C5: record-level shuffling is a permutation at record granularity: for any
permutation of the parsed lines, the sequence of per-record (texts, one-hot)
groups is permuted accordingly (so their multiset is invariant and no group's
internal choice order changes); the dataset flattens those groups in record
order, so no group is split; and the shuffled construction succeeds exactly
when the unshuffled one does. -/
theorem shuffle_is_record_level_permutation (records records' : List QARecord)
    (mode sep : String) (hperm : records.Perm records') :
    ((records.map (recordGroup mode sep)).Perm (records'.map (recordGroup mode sep))) ∧
    (∀ d, buildDataset records sep mode = some d →
      ∃ ys, oneHots records = some ys ∧
        d.content = (records.map (recordTexts mode sep)).flatten ∧
        d.labels = ys.flatten) ∧
    ((buildDataset records sep mode).isSome ↔ (buildDataset records' sep mode).isSome) := by
  refine ⟨hperm.map _, ?_, ?_⟩
  · intro d hd
    rw [buildDataset_decomp] at hd
    cases hys : oneHots records with
    | none => rw [hys] at hd; exact Option.noConfusion hd
    | some ys =>
      rw [hys] at hd
      simp only [Option.map_some', Option.some_inj] at hd
      exact ⟨ys, rfl, by rw [← hd], by rw [← hd]⟩
  · rw [buildDataset_decomp, buildDataset_decomp]
    rw [Option.isSome_map', Option.isSome_map']
    have hiff : oneHots records = none ↔ oneHots records' = none := by
      rw [oneHots_eq_none_iff, oneHots_eq_none_iff]
      constructor
      · rintro ⟨r, hr, hra⟩; exact ⟨r, hperm.mem_iff.mp hr, hra⟩
      · rintro ⟨r, hr, hra⟩; exact ⟨r, hperm.mem_iff.mpr hr, hra⟩
    rw [Option.isSome_iff_ne_none, Option.isSome_iff_ne_none]
    exact not_iff_not.mpr hiff

theorem shuffle_is_record_level_permutation_witness :
    ([(⟨"a", ["1"], some "A"⟩ : QARecord), ⟨"b", ["2"], some "B"⟩].Perm
      [(⟨"b", ["2"], some "B"⟩ : QARecord), ⟨"a", ["1"], some "A"⟩]) ∧
    (([(⟨"a", ["1"], some "A"⟩ : QARecord), ⟨"b", ["2"], some "B"⟩].map (recordGroup "0" "</s>")).Perm
      ([(⟨"b", ["2"], some "B"⟩ : QARecord), ⟨"a", ["1"], some "A"⟩].map (recordGroup "0" "</s>"))) ∧
    ((buildDataset [(⟨"a", ["1"], some "A"⟩ : QARecord), ⟨"b", ["2"], some "B"⟩] "</s>" "0").isSome ↔
      (buildDataset [(⟨"b", ["2"], some "B"⟩ : QARecord), ⟨"a", ["1"], some "A"⟩] "</s>" "0").isSome) := by
  have h := shuffle_is_record_level_permutation
    [⟨"a", ["1"], some "A"⟩, ⟨"b", ["2"], some "B"⟩]
    [⟨"b", ["2"], some "B"⟩, ⟨"a", ["1"], some "A"⟩]
    "0" "</s>" (by decide)
  exact ⟨by decide, h.1, h.2.2⟩

theorem map_getD_range {α : Type} (l : List α) (d : α) :
    (List.range l.length).map (fun i => l.getD i d) = l := by
  apply List.ext_getElem
  · simp
  · intro i h1 h2
    simp only [List.getElem_map, List.getElem_range]
    exact List.getD_eq_getElem l d h2

theorem onehot_range_count : ∀ c < 9, ∀ k < c,
    ((((List.range c).map (fun i => (List.set [0, 0, 0, 0, 0, 0, 0, 0] k 1).getD i 0)).count 1 = 1) ∧
     ∀ v ∈ (List.range c).map (fun i => (List.set [0, 0, 0, 0, 0, 0, 0, 0] k 1).getD i 0),
       v = 1 ∨ v = 0) := by
  decide

/-- C1: for a record whose answer key sits at position `k` of the fixed A–H
space with `k` below the number of choices (at most 8), the dataset built from
that record has exactly `len(choices)` items; indexing them all yields
`len(choices)` (text, label) pairs whose texts are the formatted texts in
choice order, exactly one of which carries label 1 and the rest label 0. -/
theorem record_formatter_onehot (r : QARecord) (mode sep : String) (k : Nat)
    (hmode : mode = "0" ∨ mode = "1" ∨ mode = "2")
    (hc : r.choices.length ≤ 8)
    (hk : List.indexOf? (labelOf r) answers = some k)
    (hkc : k < r.choices.length) :
    ∃ d ex, buildDataset [r] sep mode = some d ∧
      datasetLen d = r.choices.length ∧
      producedExamples d = some ex ∧
      ex.length = r.choices.length ∧
      ex.map Prod.fst = recordTexts mode sep r ∧
      (ex.map Prod.snd).count 1 = 1 ∧
      (∀ p ∈ ex, p.2 = 1 ∨ p.2 = 0) := by
  set texts := recordTexts mode sep r with htexts
  set y := List.set [0, 0, 0, 0, 0, 0, 0, 0] k 1 with hy
  have hyd : oneHot (labelOf r) = some y := by rw [oneHot, hk]
  have hbd : buildDataset [r] sep mode = some ⟨texts, y⟩ := by
    simp [buildDataset, buildFrom, processRecord, hyd]
  have htlen : texts.length = r.choices.length := by
    rcases hmode with rfl | rfl | rfl <;> simp [htexts, recordTexts]
  have hylen : y.length = 8 := by rw [hy]; simp
  set d : DatasetState := ⟨texts, y⟩ with hd
  have hdl : datasetLen d = r.choices.length := by rw [datasetLen, hd, htlen]
  have hitem : ∀ i ∈ List.range (datasetLen d),
      getItem d i = some ((fun i => (texts.getD i "", y.getD i 0)) i) := by
    intro i hi
    rw [List.mem_range, hdl] at hi
    have hi1 : i < texts.length := htlen ▸ hi
    have hi2 : i < y.length := by omega
    show getItem ⟨texts, y⟩ i = _
    rw [getItem]
    simp only
    rw [List.getElem?_eq_getElem hi1, List.getElem?_eq_getElem hi2]
    simp only [Option.some_inj]
    rw [List.getD_eq_getElem texts "" hi1, List.getD_eq_getElem y 0 hi2]
  have hex : producedExamples d =
      some ((List.range (datasetLen d)).map (fun i => (texts.getD i "", y.getD i 0))) := by
    rw [producedExamples]
    exact collectItems_eq_map d _ _ hitem
  set ex := (List.range (datasetLen d)).map (fun i => (texts.getD i "", y.getD i 0)) with hexdef
  have hcount := onehot_range_count r.choices.length (by omega) k hkc
  refine ⟨d, ex, hbd, hdl, hex, by simp [hexdef, hdl], ?_, ?_, ?_⟩
  · rw [hexdef, List.map_map]
    have : (Prod.fst ∘ fun i => (texts.getD i "", y.getD i 0)) = fun i => texts.getD i "" := rfl
    rw [this, hdl, ← htlen, map_getD_range]
  · rw [hexdef, List.map_map]
    have : (Prod.snd ∘ fun i => (texts.getD i "", y.getD i 0)) = fun i => y.getD i 0 := rfl
    rw [this, hdl]
    exact hcount.1
  · intro p hp
    rw [hexdef] at hp
    obtain ⟨i, hi, rfl⟩ := List.mem_map.mp hp
    rw [hdl] at hi
    exact hcount.2 (y.getD i 0) (List.mem_map.mpr ⟨i, hi, rfl⟩)

theorem record_formatter_onehot_witness :
    ((("0" : String) = "0" ∨ ("0" : String) = "1" ∨ ("0" : String) = "2") ∧
     (⟨"stem", ["x", "y"], some "B"⟩ : QARecord).choices.length ≤ 8 ∧
     List.indexOf? (labelOf ⟨"stem", ["x", "y"], some "B"⟩) answers = some 1 ∧
     1 < (⟨"stem", ["x", "y"], some "B"⟩ : QARecord).choices.length) ∧
    (buildDataset [⟨"stem", ["x", "y"], some "B"⟩] "</s>" "0" =
      some ⟨["stem x", "stem y"], [0, 1, 0, 0, 0, 0, 0, 0]⟩) ∧
    (producedExamples ⟨["stem x", "stem y"], [0, 1, 0, 0, 0, 0, 0, 0]⟩ =
      some [("stem x", 0), ("stem y", 1)]) ∧
    (∃ d ex, buildDataset [(⟨"stem", ["x", "y"], some "B"⟩ : QARecord)] "</s>" "0" = some d ∧
      datasetLen d = (⟨"stem", ["x", "y"], some "B"⟩ : QARecord).choices.length ∧
      producedExamples d = some ex ∧
      ex.length = (⟨"stem", ["x", "y"], some "B"⟩ : QARecord).choices.length ∧
      ex.map Prod.fst = recordTexts "0" "</s>" ⟨"stem", ["x", "y"], some "B"⟩ ∧
      (ex.map Prod.snd).count 1 = 1 ∧
      (∀ p ∈ ex, p.2 = 1 ∨ p.2 = 0)) :=
  ⟨⟨Or.inl rfl, by decide, by decide, by decide⟩, by decide, by decide,
   record_formatter_onehot ⟨"stem", ["x", "y"], some "B"⟩ "0" "</s>" 1
     (Or.inl rfl) (by decide) (by decide) (by decide)⟩
